import Mathlib

/-!
Verification of the OpenAPI v3 root-document module (`openapi3/openapi3.go`):
the document graph root `T`, version propagation (`WithMinorOpenAPIVersion`),
the mutation helpers (`AddOperation`, `AddServer`), the validation engine
(`T.Validate`) and the decode hook (`UnmarshalJSON`).

The child node types (Info, PathItem, Components, Server, Tag,
SecurityRequirement, ExternalDocs) and the jsoninfo decode layer live outside
the modelled source file; they are external collaborators and are modelled
from the spec at their interface: each node carries a version stamp and the
outcome its own internal `Validate` reports (an oracle field `err`), since the
spec leaves their leaf-level rules out of scope.
-/

namespace openapi3

/-- Error values as the engine manipulates them: a leaf message
(`errors.New`) or an error wrapped with an attribution prefix
(`fmt.Errorf "invalid X: %w"`). -/
inductive OErr : Type where
  | msg : String → OErr
  | wrapped : String → OErr → OErr
deriving DecidableEq, Repr

/-- Models `errors.Unwrap` on an error produced with `%w`: recovers the wrapped cause. -/
def OErr.unwrap : OErr → Option OErr
  | .msg _ => none
  | .wrapped _ e => some e

/-- Modelled from the spec: §7 error kinds — `MissingField` is the kind reported
for a required field that is absent. The engine's absence messages are
"must be a non-empty string" (empty format-version) and "must be an object"
(absent info / paths). -/
def OErr.isMissingField : OErr → Bool
  | .msg "must be a non-empty string" => true
  | .msg "must be an object" => true
  | _ => false

/-- First failure among a sequence of step outcomes, in order
(short-circuit on first failure). -/
def firstErr : List (Option OErr) → Option OErr
  | [] => none
  | some e :: _ => some e
  | none :: rest => firstErr rest

/-- Lookup in an association list; models Go map indexing `m[k]`
(string-keyed maps in this module). -/
def lookupKey {α : Type} : List (String × α) → String → Option α
  | [], _ => none
  | (k', v) :: rest, k => if k' = k then some v else lookupKey rest k

/-- Insert-or-replace in an association list; models Go map assignment
`m[k] = v` (replaces the binding if the key exists, appends otherwise). -/
def upsert {α : Type} : List (String × α) → String → α → List (String × α)
  | [], k, v => [(k, v)]
  | (k', v') :: rest, k, v =>
      if k' = k then (k, v) :: rest else (k', v') :: upsert rest k v

/-- The format-version string (Go: `type Version string`; its methods live in a
sibling file of the module). -/
abbrev Version := String

/-- Splits a character sequence at every dot (the components of a
"major.minor.patch" string). -/
def splitDots : List Char → List (List Char)
  | [] => [[]]
  | c :: rest =>
      match splitDots rest, decide (c = '.') with
      | r, true => [] :: r
      | [], false => [[c]]
      | h :: t, false => (c :: h) :: t

/-- The numeric value of a non-empty all-digit component, `none` otherwise. -/
def natOfDigits (cs : List Char) : Option Nat :=
  if cs ≠ [] && cs.all (fun c => c.isDigit) then
    some (cs.foldl (fun n c => 10 * n + (c.toNat - 48)) 0)
  else none

/-- Modelled from the spec: `declaredMinorVersion` — the minor component parsed
from a format-version string of shape "3.minor.patch"; the base minor version 0
when the string does not parse. -/
def Version.Minor (v : Version) : Nat :=
  match splitDots v.toList with
  | [_, m, _] => (natOfDigits m).getD 0
  | _ => 0

/-- Modelled from the spec: `Version.Validate` — a present format-version must
match the accepted pattern "3.minor.patch" with numeric components, otherwise
the check fails (the spec's `InvalidVersion` kind). -/
def Version.Validate (v : Version) : Option OErr :=
  match splitDots v.toList with
  | [maj, m, p] =>
      if maj == ['3'] && (natOfDigits m).isSome && (natOfDigits p).isSome then
        none
      else some (.msg ("unsupported openapi version: " ++ v))
  | _ => some (.msg ("unsupported openapi version: " ++ v))

/-- Modelled from the spec: the metadata (info) block, an external collaborator
seen at its interface: a version stamp and the outcome its internal
`Validate` reports. -/
structure Info where
  version : Nat
  err : Option OErr
deriving DecidableEq, Repr

/-- Modelled from the spec: an endpoint operation node (stamp + internal
validation outcome). -/
structure Operation where
  version : Nat
  err : Option OErr
deriving DecidableEq, Repr

/-- Modelled from the spec: a server entry (stamp + internal validation
outcome). -/
structure Server where
  version : Nat
  err : Option OErr
deriving DecidableEq, Repr

/-- Modelled from the spec: a tag entry (stamp + internal validation
outcome). -/
structure Tag where
  version : Nat
  err : Option OErr
deriving DecidableEq, Repr

/-- Modelled from the spec: a security-requirement entry (stamp + internal
validation outcome). -/
structure SecurityRequirement where
  version : Nat
  err : Option OErr
deriving DecidableEq, Repr

/-- Modelled from the spec: the external-docs link (stamp + internal validation
outcome). -/
structure ExternalDocs where
  version : Nat
  err : Option OErr
deriving DecidableEq, Repr

/-- Modelled from the spec: one entry of the component registry (stamp +
internal validation outcome). -/
structure ComponentEntry where
  version : Nat
  err : Option OErr
deriving DecidableEq, Repr

/-- Modelled from the spec: the component registry — a value field of the root
(always present; "logically empty" = no entries). -/
structure Components where
  version : Nat
  entries : List ComponentEntry
deriving DecidableEq, Repr

/-- Modelled from the spec: a path item holds up to one operation per HTTP
method (method-keyed association list) plus its own internal validation
outcome. -/
structure PathItem where
  version : Nat
  operations : List (String × Operation)
  err : Option OErr
deriving DecidableEq, Repr

/-- The endpoint collection: path-pattern keyed map of path items
(Go: `type Paths map[string]*PathItem`, nil-able at the root). -/
abbrev Paths := List (String × PathItem)

/-- Go: `type SecurityRequirements []SecurityRequirement` (nil-able slice). -/
abbrev SecurityRequirements := List SecurityRequirement

/-- Go: `type Servers []*Server` (nil-able slice). -/
abbrev Servers := List Server

/-- Go: `type Tags []*Tag` (nil-able slice). -/
abbrev Tags := List Tag

/-- Modelled from the spec: the registry's internal validation reports its
entries' rule violations, first one wins; an empty registry has none to
report. -/
def Components.Validate (c : Components) : Option OErr :=
  firstErr (c.entries.map (·.err))

/-- Modelled from the spec: the info block's internal validation outcome. -/
def Info.Validate (i : Info) : Option OErr := i.err

/-- Modelled from the spec: an operation's internal validation outcome. -/
def Operation.Validate (op : Operation) : Option OErr := op.err

/-- Modelled from the spec: a path item validates its own rules then each of
its operations, first failure wins. -/
def PathItem.Validate (p : PathItem) : Option OErr :=
  firstErr (p.err :: p.operations.map (fun kv => kv.2.err))

/-- Modelled from the spec: the endpoint collection validates each path item
(and so each operation), first failure wins. -/
def Paths.Validate (ps : Paths) : Option OErr :=
  firstErr (ps.map (fun kv => PathItem.Validate kv.2))

/-- Modelled from the spec: element-wise internal validation, first failure
wins; the empty list has nothing to report. -/
def SecurityRequirements.Validate (ss : SecurityRequirements) : Option OErr :=
  firstErr (ss.map (·.err))

/-- Modelled from the spec: element-wise internal validation, first failure
wins; the empty list has nothing to report. -/
def Servers.Validate (ss : Servers) : Option OErr :=
  firstErr (ss.map (·.err))

/-- Modelled from the spec: element-wise internal validation, first failure
wins; the empty list has nothing to report. -/
def Tags.Validate (ts : Tags) : Option OErr :=
  firstErr (ts.map (·.err))

/-- Modelled from the spec: the external-docs link's internal validation
outcome. -/
def ExternalDocs.Validate (x : ExternalDocs) : Option OErr := x.err

/-- The root of an OpenAPI v3 document (Go struct `T`). Nil-able Go fields
(pointers, maps, slices) become `Option`; `Components` is a value field and is
always present. The unexported `visited` cache is unused in the modelled
surface and omitted. -/
structure T where
  OpenAPI : Version
  Components : Components
  Info : Option Info
  Paths : Option Paths
  Security : Option SecurityRequirements
  Servers : Option Servers
  Tags : Option Tags
  ExternalDocs : Option ExternalDocs
  specMinorVersion : Nat
deriving DecidableEq, Repr

/-- Modelled from the spec (§4.2): stamping an operation node. -/
def Operation.WithMinorOpenAPIVersion (op : Operation) (v : Nat) : Operation :=
  { op with version := v }

/-- Modelled from the spec (§4.2): stamping an absent info block is a no-op. -/
def Info.WithMinorOpenAPIVersion : Option Info → Nat → Option Info
  | none, _ => none
  | some i, v => some { i with version := v }

/-- Modelled from the spec (§4.2): stamping a registry entry. -/
def ComponentEntry.WithMinorOpenAPIVersion (e : ComponentEntry) (v : Nat) :
    ComponentEntry :=
  { e with version := v }

/-- Modelled from the spec (§4.2): the registry stamps itself and each entry. -/
def Components.WithMinorOpenAPIVersion (c : Components) (v : Nat) : Components :=
  { version := v
    entries := c.entries.map (ComponentEntry.WithMinorOpenAPIVersion · v) }

/-- Modelled from the spec (§4.2): a path item stamps itself and each attached
operation. -/
def PathItem.WithMinorOpenAPIVersion (p : PathItem) (v : Nat) : PathItem :=
  { p with
    version := v
    operations := p.operations.map (fun kv => (kv.1, kv.2.WithMinorOpenAPIVersion v)) }

/-- Modelled from the spec (§4.2): an absent endpoint collection is skipped,
a present one stamps every path item. -/
def Paths.WithMinorOpenAPIVersion : Option Paths → Nat → Option Paths
  | none, _ => none
  | some ps, v => some (ps.map (fun kv => (kv.1, kv.2.WithMinorOpenAPIVersion v)))

/-- Modelled from the spec (§4.2): stamping one security requirement. -/
def SecurityRequirement.WithMinorOpenAPIVersion (s : SecurityRequirement)
    (v : Nat) : SecurityRequirement :=
  { s with version := v }

/-- Modelled from the spec (§4.2): an absent list is skipped, a present one
stamps each element. -/
def SecurityRequirements.WithMinorOpenAPIVersion :
    Option SecurityRequirements → Nat → Option SecurityRequirements
  | none, _ => none
  | some l, v => some (l.map (SecurityRequirement.WithMinorOpenAPIVersion · v))

/-- Modelled from the spec (§4.2): stamping one server. -/
def Server.WithMinorOpenAPIVersion (s : Server) (v : Nat) : Server :=
  { s with version := v }

/-- Modelled from the spec (§4.2): an absent list is skipped, a present one
stamps each element. -/
def Servers.WithMinorOpenAPIVersion : Option Servers → Nat → Option Servers
  | none, _ => none
  | some l, v => some (l.map (Server.WithMinorOpenAPIVersion · v))

/-- Modelled from the spec (§4.2): stamping one tag. -/
def Tag.WithMinorOpenAPIVersion (t : Tag) (v : Nat) : Tag :=
  { t with version := v }

/-- Modelled from the spec (§4.2): an absent list is skipped, a present one
stamps each element. -/
def Tags.WithMinorOpenAPIVersion : Option Tags → Nat → Option Tags
  | none, _ => none
  | some l, v => some (l.map (Tag.WithMinorOpenAPIVersion · v))

/-- Modelled from the spec (§4.2): stamping an absent external-docs link is a
no-op. -/
def ExternalDocs.WithMinorOpenAPIVersion :
    Option ExternalDocs → Nat → Option ExternalDocs
  | none, _ => none
  | some x, v => some { x with version := v }

/-- Source `WithMinorOpenAPIVersion`: nil-checks the receiver, stores the
minor version on the root, propagates it to each child field, and returns the
receiver for chaining. -/
def T.WithMinorOpenAPIVersion : Option T → Nat → Option T
  | none, _ => none
  | some doc, v => some
      { doc with
        specMinorVersion := v
        Components := doc.Components.WithMinorOpenAPIVersion v
        Info := Info.WithMinorOpenAPIVersion doc.Info v
        Paths := Paths.WithMinorOpenAPIVersion doc.Paths v
        Security := SecurityRequirements.WithMinorOpenAPIVersion doc.Security v
        Servers := Servers.WithMinorOpenAPIVersion doc.Servers v
        Tags := Tags.WithMinorOpenAPIVersion doc.Tags v
        ExternalDocs := ExternalDocs.WithMinorOpenAPIVersion doc.ExternalDocs v }

/-- The zero value `&PathItem{}` the mutation helper creates when a path has no
item yet. -/
def PathItem.empty : PathItem :=
  { version := 0, operations := [], err := none }

/-- Modelled from the spec (§3, §4.4): `SetOperation` upserts the operation
under the method key — overwriting any existing operation at that method,
last-write-wins. -/
def PathItem.SetOperation (p : PathItem) (method : String) (op : Operation) :
    PathItem :=
  { p with operations := upsert p.operations method op }

/-- Source `AddOperation`: ensures the endpoint collection exists, ensures a
path item exists for the pattern, attaches the operation under the method, and
re-stamps the attached operation with the document's current version. (The Go
code stamps the operation through the shared pointer after attaching it; the
resulting graph holds the stamped operation, which is what is modelled.) -/
def T.AddOperation (doc : T) (path method : String) (operation : Operation) :
    T :=
  let paths := doc.Paths.getD []
  let pathItem := (lookupKey paths path).getD PathItem.empty
  let stamped := operation.WithMinorOpenAPIVersion doc.specMinorVersion
  let pathItem' := pathItem.SetOperation method stamped
  { doc with Paths := some (upsert paths path pathItem') }

/-- Source `AddServer`: `doc.Servers = append(doc.Servers, server)` — appends
at the end, creating the list when it was nil. -/
def T.AddServer (doc : T) (server : Server) : T :=
  { doc with Servers := some (doc.Servers.getD [] ++ [server]) }

/-- Source `UnmarshalJSON`: the decode layer `jsoninfo.UnmarshalStrictStruct`
is an external collaborator; its outcome — the receiver state it produced and
the error it returned — is taken as input here. The source runs version
propagation only when the decode error is non-nil, and returns the decode
error unchanged; the pair returned is (final document state, returned
error). -/
def T.UnmarshalJSON (doc : T) (decodeErr : Option OErr) : T × Option OErr :=
  match decodeErr with
  | some e =>
      ((T.WithMinorOpenAPIVersion (some doc) (Version.Minor doc.OpenAPI)).getD doc,
        some e)
  | none => (doc, none)

/-! The body of the source's `Validate` is a straight-line sequence of blocks,
one per field, each returning the wrapped error on failure and falling through
to the next block otherwise. Each fall-through point is named here as a
`validate...Onward` function (the suffix of the source body starting at that
block), so the translation below keeps the source's exact block order. -/

/-- Source `Validate`, external-docs block: validated only if present. -/
def T.validateExternalDocsOnward (doc : T) : Option OErr :=
  match doc.ExternalDocs with
  | some x =>
      match ExternalDocs.Validate x with
      | some err => some (OErr.wrapped "invalid external docs" err)
      | none => none
  | none => none

/-- Source `Validate`, tags block onward: validated only if present. -/
def T.validateTagsOnward (doc : T) : Option OErr :=
  match doc.Tags with
  | some t =>
      match Tags.Validate t with
      | some err => some (OErr.wrapped "invalid tags" err)
      | none => doc.validateExternalDocsOnward
  | none => doc.validateExternalDocsOnward

/-- Source `Validate`, servers block onward: validated only if present. -/
def T.validateServersOnward (doc : T) : Option OErr :=
  match doc.Servers with
  | some s =>
      match Servers.Validate s with
      | some err => some (OErr.wrapped "invalid servers" err)
      | none => doc.validateTagsOnward
  | none => doc.validateTagsOnward

/-- Source `Validate`, security block onward: validated only if present. -/
def T.validateSecurityOnward (doc : T) : Option OErr :=
  match doc.Security with
  | some s =>
      match SecurityRequirements.Validate s with
      | some err => some (OErr.wrapped "invalid security" err)
      | none => doc.validateServersOnward
  | none => doc.validateServersOnward

/-- Source `Validate`: fixed order with early return on the first failing
step. The context-carried validation options reach only the leaf
collaborators and are absorbed into their oracled outcomes. -/
def T.Validate (doc : T) : Option OErr :=
  if doc.OpenAPI = "" then
    some (OErr.wrapped "invalid openapi value" (OErr.msg "must be a non-empty string"))
  else match Version.Validate doc.OpenAPI with
  | some err => some (OErr.wrapped "invalid openapi value" err)
  | none =>
  match Components.Validate doc.Components with
  | some err => some (OErr.wrapped "invalid components" err)
  | none =>
  match doc.Info with
  | none => some (OErr.wrapped "invalid info" (OErr.msg "must be an object"))
  | some info =>
  match Info.Validate info with
  | some err => some (OErr.wrapped "invalid info" err)
  | none =>
  match doc.Paths with
  | none => some (OErr.wrapped "invalid paths" (OErr.msg "must be an object"))
  | some paths =>
  match Paths.Validate paths with
  | some err => some (OErr.wrapped "invalid paths" err)
  | none => doc.validateSecurityOnward

/-! ### Version-stamp observations (for §4.2 propagation properties) -/

/-- All nodes of the registry subtree carry stamp `v`. -/
def Components.stampedWith (c : Components) (v : Nat) : Bool :=
  c.version == v && c.entries.all (fun e => e.version == v)

/-- All nodes of a path-item subtree carry stamp `v`. -/
def PathItem.stampedWith (p : PathItem) (v : Nat) : Bool :=
  p.version == v && p.operations.all (fun kv => kv.2.version == v)

/-- All nodes of the endpoint collection carry stamp `v`. -/
def Paths.stampedWith (ps : Paths) (v : Nat) : Bool :=
  ps.all (fun kv => PathItem.stampedWith kv.2 v)

/-- The root and every structurally-present descendant node carry stamp `v`
(absent children impose nothing, per §4.2). -/
def T.allStampedWith (doc : T) (v : Nat) : Bool :=
  doc.specMinorVersion == v &&
  doc.Components.stampedWith v &&
  (match doc.Info with
   | none => true
   | some i => i.version == v) &&
  (match doc.Paths with
   | none => true
   | some ps => ps.stampedWith v) &&
  (match doc.Security with
   | none => true
   | some l => l.all (fun s => s.version == v)) &&
  (match doc.Servers with
   | none => true
   | some l => l.all (fun s => s.version == v)) &&
  (match doc.Tags with
   | none => true
   | some l => l.all (fun t => t.version == v)) &&
  (match doc.ExternalDocs with
   | none => true
   | some x => x.version == v)

/-- The registry with every stamp reset to 0 (stamp-erasure, used to state
that propagation changes nothing but the stamps). -/
def Components.stripStamps (c : Components) : Components :=
  { version := 0, entries := c.entries.map (fun e => { e with version := 0 }) }

/-- A path-item subtree with every stamp reset to 0. -/
def PathItem.stripStamps (p : PathItem) : PathItem :=
  { p with
    version := 0
    operations := p.operations.map (fun kv => (kv.1, { kv.2 with version := 0 })) }

/-- The document with every stamp in the graph reset to 0. -/
def T.stripStamps (doc : T) : T :=
  { doc with
    specMinorVersion := 0
    Components := doc.Components.stripStamps
    Info := doc.Info.map (fun i => { i with version := 0 })
    Paths := doc.Paths.map (fun ps => ps.map (fun kv => (kv.1, kv.2.stripStamps)))
    Security := doc.Security.map (fun l => l.map (fun s => { s with version := 0 }))
    Servers := doc.Servers.map (fun l => l.map (fun s => { s with version := 0 }))
    Tags := doc.Tags.map (fun l => l.map (fun t => { t with version := 0 }))
    ExternalDocs := doc.ExternalDocs.map (fun x => { x with version := 0 }) }

/-- The shape of the endpoint graph: the path patterns with their method keys,
in insertion order, operation values erased. -/
def T.pathShape (doc : T) : Option (List (String × List String)) :=
  doc.Paths.map (List.map (fun kv => (kv.1, kv.2.operations.map Prod.fst)))

/-! ### Helper lemmas: association lists -/

lemma lookupKey_upsert_self {α : Type} (l : List (String × α)) (k : String)
    (v : α) : lookupKey (upsert l k v) k = some v := by
  induction l with
  | nil => simp [upsert, lookupKey]
  | cons a rest ih =>
    obtain ⟨k', v'⟩ := a
    by_cases h : k' = k
    · simp [upsert, h, lookupKey]
    · simp [upsert, h, lookupKey, ih]

lemma upsert_upsert_self {α : Type} (l : List (String × α)) (k : String)
    (a b : α) : upsert (upsert l k a) k b = upsert l k b := by
  induction l with
  | nil => simp [upsert]
  | cons x rest ih =>
    obtain ⟨k', v'⟩ := x
    by_cases h : k' = k
    · simp [upsert, h]
    · simp [upsert, h, ih]

lemma keys_upsert_irrel {α : Type} (l : List (String × α)) (k : String)
    (a b : α) :
    (upsert l k a).map Prod.fst = (upsert l k b).map Prod.fst := by
  induction l with
  | nil => simp [upsert]
  | cons x rest ih =>
    obtain ⟨k', v'⟩ := x
    by_cases h : k' = k
    · simp [upsert, h]
    · simp [upsert, h, ih]

lemma upsert_map_congr {α β : Type} (g : α → β) (l : List (String × α))
    (k : String) (a b : α) (h : g a = g b) :
    (upsert l k a).map (fun kv => (kv.1, g kv.2)) =
      (upsert l k b).map (fun kv => (kv.1, g kv.2)) := by
  induction l with
  | nil => simp [upsert, h]
  | cons x rest ih =>
    obtain ⟨k', v'⟩ := x
    by_cases hk : k' = k
    · simp [upsert, hk, h]
    · simp [upsert, hk, ih]

/-! ### Helper lemmas: version propagation -/

lemma components_stamp_stamped (c : Components) (v : Nat) :
    (c.WithMinorOpenAPIVersion v).stampedWith v = true := by
  unfold Components.WithMinorOpenAPIVersion Components.stampedWith
    ComponentEntry.WithMinorOpenAPIVersion
  simp [List.all_eq_true]

lemma pathItem_stamp_stamped (p : PathItem) (v : Nat) :
    (p.WithMinorOpenAPIVersion v).stampedWith v = true := by
  unfold PathItem.WithMinorOpenAPIVersion PathItem.stampedWith
    Operation.WithMinorOpenAPIVersion
  simp [List.all_eq_true]

lemma paths_stamp_stamped (ps : Paths) (v : Nat) :
    Paths.stampedWith
      (ps.map (fun kv => (kv.1, kv.2.WithMinorOpenAPIVersion v))) v = true := by
  unfold Paths.stampedWith
  simp only [List.all_map, List.all_eq_true]
  intro kv _
  exact pathItem_stamp_stamped kv.2 v


lemma withMinor_getD_stamped (doc : T) (v : Nat) :
    ((T.WithMinorOpenAPIVersion (some doc) v).getD doc).allStampedWith v
      = true := by
  obtain ⟨oa, comps, oinfo, opaths, osec, oserv, otags, oext, smv⟩ := doc
  cases oinfo <;> cases opaths <;> cases osec <;> cases oserv <;> cases otags <;>
    cases oext <;>
    simp [T.WithMinorOpenAPIVersion, T.allStampedWith,
      Info.WithMinorOpenAPIVersion, Paths.WithMinorOpenAPIVersion,
      SecurityRequirements.WithMinorOpenAPIVersion,
      SecurityRequirement.WithMinorOpenAPIVersion,
      Servers.WithMinorOpenAPIVersion, Server.WithMinorOpenAPIVersion,
      Tags.WithMinorOpenAPIVersion, Tag.WithMinorOpenAPIVersion,
      ExternalDocs.WithMinorOpenAPIVersion,
      components_stamp_stamped, paths_stamp_stamped,
      List.all_map, List.all_eq_true]

lemma withMinor_getD_strip (doc : T) (v : Nat) :
    ((T.WithMinorOpenAPIVersion (some doc) v).getD doc).stripStamps
      = doc.stripStamps := by
  obtain ⟨oa, comps, oinfo, opaths, osec, oserv, otags, oext, smv⟩ := doc
  cases oinfo <;> cases opaths <;> cases osec <;> cases oserv <;> cases otags <;>
    cases oext <;>
    simp [T.WithMinorOpenAPIVersion, T.stripStamps,
      Components.WithMinorOpenAPIVersion, Components.stripStamps,
      ComponentEntry.WithMinorOpenAPIVersion,
      Info.WithMinorOpenAPIVersion, Paths.WithMinorOpenAPIVersion,
      PathItem.WithMinorOpenAPIVersion, PathItem.stripStamps,
      Operation.WithMinorOpenAPIVersion,
      SecurityRequirements.WithMinorOpenAPIVersion,
      SecurityRequirement.WithMinorOpenAPIVersion,
      Servers.WithMinorOpenAPIVersion, Server.WithMinorOpenAPIVersion,
      Tags.WithMinorOpenAPIVersion, Tag.WithMinorOpenAPIVersion,
      ExternalDocs.WithMinorOpenAPIVersion,
      List.map_map, Function.comp]

lemma withMinor_idem (o : Option T) (v : Nat) :
    T.WithMinorOpenAPIVersion (T.WithMinorOpenAPIVersion o v) v =
      T.WithMinorOpenAPIVersion o v := by
  cases o with
  | none => rfl
  | some doc =>
    obtain ⟨oa, comps, oinfo, opaths, osec, oserv, otags, oext, smv⟩ := doc
    cases oinfo <;> cases opaths <;> cases osec <;> cases oserv <;>
      cases otags <;> cases oext <;>
      simp [T.WithMinorOpenAPIVersion,
        Components.WithMinorOpenAPIVersion, ComponentEntry.WithMinorOpenAPIVersion,
        Info.WithMinorOpenAPIVersion, Paths.WithMinorOpenAPIVersion,
        PathItem.WithMinorOpenAPIVersion, Operation.WithMinorOpenAPIVersion,
        SecurityRequirements.WithMinorOpenAPIVersion,
        SecurityRequirement.WithMinorOpenAPIVersion,
        Servers.WithMinorOpenAPIVersion, Server.WithMinorOpenAPIVersion,
        Tags.WithMinorOpenAPIVersion, Tag.WithMinorOpenAPIVersion,
        ExternalDocs.WithMinorOpenAPIVersion,
        List.map_map, Function.comp]

/-! ### Spec-side description of the validation order (§4.3)

Each step is written from the spec's wording: the step's raw outcome, wrapped
with the step's attribution label on failure. `ValidateSpec` is their
first-failure composition in the spec's fixed order; it is compared with the
source-translated `T.Validate` below. -/

/-- Spec §4.3 step 1, raw outcome: MissingField if the format-version is empty,
else the version-pattern check. -/
def rawOpenAPI (doc : T) : Option OErr :=
  if doc.OpenAPI = "" then some (OErr.msg "must be a non-empty string")
  else Version.Validate doc.OpenAPI

/-- Spec §4.3 step 2, raw outcome: the registry is always validated. -/
def rawComponents (doc : T) : Option OErr :=
  Components.Validate doc.Components

/-- Spec §4.3 step 3, raw outcome: MissingField if the metadata block is
absent, else its internal validation. -/
def rawInfo (doc : T) : Option OErr :=
  match doc.Info with
  | none => some (OErr.msg "must be an object")
  | some i => Info.Validate i

/-- Spec §4.3 step 4, raw outcome: MissingField if the endpoint collection is
absent, else its internal validation. -/
def rawPaths (doc : T) : Option OErr :=
  match doc.Paths with
  | none => some (OErr.msg "must be an object")
  | some ps => Paths.Validate ps

/-- Spec §4.3 step 5, raw outcome: validated only if present. -/
def rawSecurity (doc : T) : Option OErr :=
  match doc.Security with
  | none => none
  | some s => SecurityRequirements.Validate s

/-- Spec §4.3 step 6, raw outcome: validated only if present. -/
def rawServers (doc : T) : Option OErr :=
  match doc.Servers with
  | none => none
  | some s => Servers.Validate s

/-- Spec §4.3 step 7, raw outcome: validated only if present. -/
def rawTags (doc : T) : Option OErr :=
  match doc.Tags with
  | none => none
  | some t => Tags.Validate t

/-- Spec §4.3 step 8, raw outcome: validated only if present. -/
def rawExternalDocs (doc : T) : Option OErr :=
  match doc.ExternalDocs with
  | none => none
  | some x => ExternalDocs.Validate x

/-- Spec §4.3: the eight steps' raw outcomes, each with its attribution
label, in the fixed order. -/
def rawSteps (doc : T) : List (String × Option OErr) :=
  [("invalid openapi value", rawOpenAPI doc),
   ("invalid components", rawComponents doc),
   ("invalid info", rawInfo doc),
   ("invalid paths", rawPaths doc),
   ("invalid security", rawSecurity doc),
   ("invalid servers", rawServers doc),
   ("invalid tags", rawTags doc),
   ("invalid external docs", rawExternalDocs doc)]

/-- Spec §4.3 step 1 with its attribution label. -/
def stepOpenAPI (doc : T) : Option OErr :=
  (rawOpenAPI doc).map (OErr.wrapped "invalid openapi value")

/-- Spec §4.3 step 2 with its attribution label. -/
def stepComponents (doc : T) : Option OErr :=
  (rawComponents doc).map (OErr.wrapped "invalid components")

/-- Spec §4.3 step 3 with its attribution label. -/
def stepInfo (doc : T) : Option OErr :=
  (rawInfo doc).map (OErr.wrapped "invalid info")

/-- Spec §4.3 step 4 with its attribution label. -/
def stepPaths (doc : T) : Option OErr :=
  (rawPaths doc).map (OErr.wrapped "invalid paths")

/-- Spec §4.3 step 5 with its attribution label. -/
def stepSecurity (doc : T) : Option OErr :=
  (rawSecurity doc).map (OErr.wrapped "invalid security")

/-- Spec §4.3 step 6 with its attribution label. -/
def stepServers (doc : T) : Option OErr :=
  (rawServers doc).map (OErr.wrapped "invalid servers")

/-- Spec §4.3 step 7 with its attribution label. -/
def stepTags (doc : T) : Option OErr :=
  (rawTags doc).map (OErr.wrapped "invalid tags")

/-- Spec §4.3 step 8 with its attribution label. -/
def stepExternalDocs (doc : T) : Option OErr :=
  (rawExternalDocs doc).map (OErr.wrapped "invalid external docs")

/-- Spec §4.3: fixed validation order, short-circuiting on the first
failure. -/
def ValidateSpec (doc : T) : Option OErr :=
  firstErr
    [stepOpenAPI doc, stepComponents doc, stepInfo doc, stepPaths doc,
     stepSecurity doc, stepServers doc, stepTags doc, stepExternalDocs doc]

/-! ### Helper lemmas (shared) -/

/-- The source-translated engine agrees with the spec's fixed-order
first-failure composition. -/
lemma externalDocsOnward_eq (doc : T) :
    doc.validateExternalDocsOnward = firstErr [stepExternalDocs doc] := by
  unfold T.validateExternalDocsOnward stepExternalDocs rawExternalDocs
  cases hx : doc.ExternalDocs with
  | none => simp [firstErr]
  | some x =>
    cases hxv : ExternalDocs.Validate x with
    | some e => simp [hxv, firstErr]
    | none => simp [hxv, firstErr]

lemma tagsOnward_eq (doc : T) :
    doc.validateTagsOnward = firstErr [stepTags doc, stepExternalDocs doc] := by
  unfold T.validateTagsOnward stepTags rawTags
  cases ht : doc.Tags with
  | none => simp [firstErr, externalDocsOnward_eq]
  | some t =>
    cases htv : Tags.Validate t with
    | some e => simp [htv, firstErr]
    | none => simp [htv, firstErr, externalDocsOnward_eq]

lemma serversOnward_eq (doc : T) :
    doc.validateServersOnward =
      firstErr [stepServers doc, stepTags doc, stepExternalDocs doc] := by
  unfold T.validateServersOnward stepServers rawServers
  cases hs : doc.Servers with
  | none => simp [firstErr, tagsOnward_eq]
  | some s =>
    cases hsv : Servers.Validate s with
    | some e => simp [hsv, firstErr]
    | none => simp [hsv, firstErr, tagsOnward_eq]

lemma securityOnward_eq (doc : T) :
    doc.validateSecurityOnward =
      firstErr [stepSecurity doc, stepServers doc, stepTags doc,
        stepExternalDocs doc] := by
  unfold T.validateSecurityOnward stepSecurity rawSecurity
  cases hs : doc.Security with
  | none => simp [firstErr, serversOnward_eq]
  | some s =>
    cases hsv : SecurityRequirements.Validate s with
    | some e => simp [hsv, firstErr]
    | none => simp [hsv, firstErr, serversOnward_eq]

/-- The source-translated engine agrees with the spec's fixed-order
first-failure composition. -/
lemma validate_eq_validateSpec (doc : T) : doc.Validate = ValidateSpec doc := by
  unfold T.Validate ValidateSpec stepOpenAPI stepComponents stepInfo stepPaths
    rawOpenAPI rawComponents rawInfo rawPaths
  by_cases h : doc.OpenAPI = ""
  · simp [h, firstErr]
  · rw [if_neg h, if_neg h]
    cases hv : Version.Validate doc.OpenAPI with
    | some e => simp [hv, firstErr]
    | none =>
    cases hc : Components.Validate doc.Components with
    | some e => simp [hv, hc, firstErr]
    | none =>
    cases hi : doc.Info with
    | none => simp [hv, hc, hi, firstErr]
    | some i =>
    cases hiv : Info.Validate i with
    | some e => simp [hv, hc, hi, hiv, firstErr]
    | none =>
    cases hp : doc.Paths with
    | none => simp [hv, hc, hi, hiv, hp, firstErr]
    | some ps =>
    cases hpv : Paths.Validate ps with
    | some e => simp [hv, hc, hi, hiv, hp, hpv, firstErr]
    | none => simp [hv, hc, hi, hiv, hp, hpv, firstErr, securityOnward_eq]

/-! ### Additional helper lemmas for the claims -/

lemma firstErr_mem {l : List (Option OErr)} {e : OErr}
    (h : firstErr l = some e) : some e ∈ l := by
  induction l with
  | nil => simp [firstErr] at h
  | cons a rest ih =>
    cases a with
    | some x =>
      simp only [firstErr, Option.some.injEq] at h
      rw [h]
      exact List.mem_cons_self _ _
    | none =>
      simp only [firstErr] at h
      exact List.mem_cons_of_mem _ (ih h)

lemma map_wrapped_eq_some {o : Option OErr} {lab : String} {e : OErr}
    (h : o.map (OErr.wrapped lab) = some e) :
    ∃ c, o = some c ∧ e = OErr.wrapped lab c := by
  cases o with
  | none => simp at h
  | some c =>
    simp only [Option.map_some', Option.some.injEq] at h
    exact ⟨c, rfl, h.symm⟩

/-- Unfolding of `AddOperation` to its resulting endpoint collection. -/
lemma addOperation_paths (doc : T) (p m : String) (op : Operation) :
    (doc.AddOperation p m op).Paths =
      some (upsert (doc.Paths.getD []) p
        (((lookupKey (doc.Paths.getD []) p).getD PathItem.empty).SetOperation m
          (op.WithMinorOpenAPIVersion doc.specMinorVersion))) := rfl

lemma addOperation_specMinorVersion (doc : T) (p m : String) (op : Operation) :
    (doc.AddOperation p m op).specMinorVersion = doc.specMinorVersion := rfl

/-! ### Concrete documents used as witnesses and counterexamples -/

/-- A successfully decoded 3.1 document whose nodes still carry the default
stamp 0 (the state `jsoninfo` leaves behind on a clean decode). -/
def docDecoded : T :=
  { OpenAPI := "3.1.0"
    Components := { version := 0, entries := [] }
    Info := some { version := 0, err := none }
    Paths := some []
    Security := none
    Servers := none
    Tags := none
    ExternalDocs := none
    specMinorVersion := 0 }

/-- A document with an empty format-version string. -/
def docEmptyVersion : T :=
  { OpenAPI := ""
    Components := { version := 0, entries := [] }
    Info := some { version := 0, err := none }
    Paths := some []
    Security := none
    Servers := none
    Tags := none
    ExternalDocs := none
    specMinorVersion := 0 }

/-- A document whose metadata block and endpoint collection are both invalid
(internally failing info, absent paths). -/
def docBothInvalid : T :=
  { OpenAPI := "3.0.3"
    Components := { version := 0, entries := [] }
    Info := some { version := 0, err := some (OErr.msg "bad info") }
    Paths := none
    Security := none
    Servers := none
    Tags := none
    ExternalDocs := none
    specMinorVersion := 0 }

/-- A document meeting all of C5's presence/emptiness premises whose present
metadata block nevertheless fails its own internal validation. -/
def docPresentButInvalidInfo : T :=
  { OpenAPI := "3.0.3"
    Components := { version := 0, entries := [] }
    Info := some { version := 0, err := some (OErr.msg "invalid info content") }
    Paths := some []
    Security := none
    Servers := none
    Tags := none
    ExternalDocs := none
    specMinorVersion := 0 }

/-- A minimal valid document: valid version, empty registry, internally valid
info, empty endpoint collection, optional fields absent. -/
def docMinimalValid : T :=
  { OpenAPI := "3.0.3"
    Components := { version := 0, entries := [] }
    Info := some { version := 0, err := none }
    Paths := some []
    Security := none
    Servers := none
    Tags := none
    ExternalDocs := none
    specMinorVersion := 0 }

/-- An otherwise-valid document whose optional collections are present but
empty and whose external-docs link is absent. -/
def docEmptyOptionals : T :=
  { OpenAPI := "3.0.3"
    Components := { version := 0, entries := [] }
    Info := some { version := 0, err := none }
    Paths := some []
    Security := some []
    Servers := some []
    Tags := some []
    ExternalDocs := none
    specMinorVersion := 0 }

/-! ### The claims -/

/-- C1 (code bug): after a successful decode (decode error = nil) the document
comes back with version propagation never run — the root stamp and the info
block's stamp stay 0 although the minor version parsed from the
format-version string "3.1.0" is 1; the source propagates only on the failure
path (`if err != nil`), as the last conjunct shows. -/
theorem unmarshalJSON_skips_propagation_on_success :
    (T.UnmarshalJSON docDecoded none).1 = docDecoded ∧
    (T.UnmarshalJSON docDecoded none).2 = none ∧
    Version.Minor docDecoded.OpenAPI = 1 ∧
    docDecoded.allStampedWith 1 = false ∧
    (T.UnmarshalJSON docDecoded (some (OErr.msg "decode failure"))).1.allStampedWith
        1 = true := by
  decide

/-- C2: `Validate` checks the fields in the fixed order (format-version,
component registry — always, metadata, endpoints, security, servers, tags,
external docs) and returns at the first failing step; in particular when the
metadata step and the endpoint step both fail, the result is exactly the
metadata step's error, wrapped with the metadata attribution label. -/
theorem validate_fixed_order_short_circuit :
    (∀ doc : T, doc.Validate = ValidateSpec doc) ∧
    (∀ (doc : T) (e : OErr), stepOpenAPI doc = none → stepComponents doc = none →
      stepInfo doc = some e → stepPaths doc ≠ none →
      doc.Validate = some e ∧ ∃ c, e = OErr.wrapped "invalid info" c) := by
  constructor
  · exact validate_eq_validateSpec
  · intro doc e h1 h2 h3 _
    constructor
    · rw [validate_eq_validateSpec]
      unfold ValidateSpec
      rw [h1, h2, h3]
      simp [firstErr]
    · unfold stepInfo at h3
      obtain ⟨c, _, hec⟩ := map_wrapped_eq_some h3
      exact ⟨c, hec⟩

/-- Witness for C2 at a concrete document whose metadata block fails
internally and whose endpoint collection is absent: only the metadata failure
is reported. -/
theorem validate_fixed_order_short_circuit_witness :
    docBothInvalid.Validate
        = some (OErr.wrapped "invalid info" (OErr.msg "bad info")) ∧
    ∃ c, OErr.wrapped "invalid info" (OErr.msg "bad info")
        = OErr.wrapped "invalid info" c :=
  validate_fixed_order_short_circuit.2 docBothInvalid
    (OErr.wrapped "invalid info" (OErr.msg "bad info"))
    (by decide) (by decide) (by decide) (by decide)

/-- C3: an empty format-version makes `Validate` fail with the engine's
missing-field error attributed to the openapi field; the version pattern
check's error is never the result (the pattern check is not reached). -/
theorem validate_empty_openapi_missing_field (doc : T)
    (h : doc.OpenAPI = "") :
    doc.Validate = some (OErr.wrapped "invalid openapi value"
        (OErr.msg "must be a non-empty string")) ∧
    OErr.isMissingField (OErr.msg "must be a non-empty string") = true ∧
    doc.Validate ≠ (Version.Validate doc.OpenAPI).map
        (OErr.wrapped "invalid openapi value") := by
  have hval : doc.Validate = some (OErr.wrapped "invalid openapi value"
      (OErr.msg "must be a non-empty string")) := by
    unfold T.Validate
    simp [h]
  refine ⟨hval, rfl, ?_⟩
  rw [hval, h]
  decide

/-- Witness for C3 at a concrete document with empty format-version. -/
theorem validate_empty_openapi_missing_field_witness :
    docEmptyVersion.Validate = some (OErr.wrapped "invalid openapi value"
        (OErr.msg "must be a non-empty string")) ∧
    OErr.isMissingField (OErr.msg "must be a non-empty string") = true ∧
    docEmptyVersion.Validate ≠ (Version.Validate docEmptyVersion.OpenAPI).map
        (OErr.wrapped "invalid openapi value") :=
  validate_empty_openapi_missing_field docEmptyVersion rfl

/-- C4: whatever step fails, the error `Validate` returns is that step's raw
(child) error wrapped in exactly one attribution layer naming the failing
field, and the child error is recoverable by unwrapping. -/
theorem validate_adds_one_attribution_layer (doc : T) (e : OErr)
    (h : doc.Validate = some e) :
    ∃ lab c, e = OErr.wrapped lab c ∧ OErr.unwrap e = some c ∧
      (lab, some c) ∈ rawSteps doc := by
  rw [validate_eq_validateSpec] at h
  unfold ValidateSpec at h
  have hmem := firstErr_mem h
  simp only [stepOpenAPI, stepComponents, stepInfo, stepPaths, stepSecurity,
    stepServers, stepTags, stepExternalDocs, List.mem_cons, List.not_mem_nil,
    or_false] at hmem
  unfold rawSteps
  rcases hmem with h1 | h1 | h1 | h1 | h1 | h1 | h1 | h1 <;>
    obtain ⟨c, hc, hec⟩ := map_wrapped_eq_some h1.symm <;>
    exact ⟨_, c, hec, by rw [hec]; rfl, by simp [hc]⟩

/-- Witness for C4 at a concrete failing document. -/
theorem validate_adds_one_attribution_layer_witness :
    ∃ lab c, OErr.wrapped "invalid info" (OErr.msg "bad info")
        = OErr.wrapped lab c ∧
      OErr.unwrap (OErr.wrapped "invalid info" (OErr.msg "bad info")) = some c ∧
      (lab, some c) ∈ rawSteps docBothInvalid :=
  validate_adds_one_attribution_layer docBothInvalid
    (OErr.wrapped "invalid info" (OErr.msg "bad info")) (by decide)

/-- C5 counterexample: a document with metadata present, endpoint collection
present and empty, a valid format-version and an empty component registry on
which `Validate` nevertheless fails (the present metadata block fails its own
internal validation), refuting the claim as stated. -/
theorem validate_presence_alone_insufficient :
    docPresentButInvalidInfo.Info.isSome = true ∧
    docPresentButInvalidInfo.Paths = some [] ∧
    Version.Validate docPresentButInvalidInfo.OpenAPI = none ∧
    docPresentButInvalidInfo.Components.entries = [] ∧
    docPresentButInvalidInfo.Validate ≠ none := by
  decide

/-- C5 (amended): with the additional premise that the present children pass
their own internal validation, `Validate` succeeds. -/
theorem validate_succeeds_when_children_valid (doc : T)
    (hv : Version.Validate doc.OpenAPI = none)
    (hc : doc.Components.entries = [])
    (hi : ∃ i, doc.Info = some i ∧ Info.Validate i = none)
    (hp : ∃ ps, doc.Paths = some ps ∧ Paths.Validate ps = none)
    (hs : ∀ s, doc.Security = some s → SecurityRequirements.Validate s = none)
    (hse : ∀ s, doc.Servers = some s → Servers.Validate s = none)
    (ht : ∀ t, doc.Tags = some t → Tags.Validate t = none)
    (hx : ∀ x, doc.ExternalDocs = some x → ExternalDocs.Validate x = none) :
    doc.Validate = none := by
  obtain ⟨i, hi1, hi2⟩ := hi
  obtain ⟨ps, hp1, hp2⟩ := hp
  have hne : ¬ doc.OpenAPI = "" := by
    intro h0
    rw [h0] at hv
    exact absurd hv (by decide)
  have hcv : Components.Validate doc.Components = none := by
    unfold Components.Validate
    rw [hc]
    rfl
  have hsec : rawSecurity doc = none := by
    unfold rawSecurity
    cases hq : doc.Security with
    | none => rfl
    | some s => exact hs s hq
  have hserv : rawServers doc = none := by
    unfold rawServers
    cases hq : doc.Servers with
    | none => rfl
    | some s => exact hse s hq
  have htags : rawTags doc = none := by
    unfold rawTags
    cases hq : doc.Tags with
    | none => rfl
    | some t => exact ht t hq
  have hext : rawExternalDocs doc = none := by
    unfold rawExternalDocs
    cases hq : doc.ExternalDocs with
    | none => rfl
    | some x => exact hx x hq
  rw [validate_eq_validateSpec]
  unfold ValidateSpec stepOpenAPI stepComponents stepInfo stepPaths
    stepSecurity stepServers stepTags stepExternalDocs rawOpenAPI rawComponents
    rawInfo rawPaths
  rw [if_neg hne]
  simp [hv, hcv, hi1, hi2, hp1, hp2, hsec, hserv, htags, hext, firstErr]

/-- Witness for the amended C5 at a concrete minimal valid document. -/
theorem validate_succeeds_when_children_valid_witness :
    docMinimalValid.Validate = none :=
  validate_succeeds_when_children_valid docMinimalValid (by decide) rfl
    ⟨{ version := 0, err := none }, rfl, rfl⟩ ⟨[], rfl, rfl⟩
    (fun s h => Option.noConfusion h) (fun s h => Option.noConfusion h)
    (fun t h => Option.noConfusion h) (fun x h => Option.noConfusion h)

/-- C6: on an otherwise-valid document (first four steps pass), absent
security/server/tag lists and an absent external-docs link never cause a
failure, and neither do present-but-empty security/server/tag lists. -/
theorem validate_optional_absent_or_empty_never_fails (doc : T)
    (h1 : stepOpenAPI doc = none) (h2 : stepComponents doc = none)
    (h3 : stepInfo doc = none) (h4 : stepPaths doc = none)
    (hs : doc.Security = none ∨ doc.Security = some [])
    (hse : doc.Servers = none ∨ doc.Servers = some [])
    (ht : doc.Tags = none ∨ doc.Tags = some [])
    (hx : doc.ExternalDocs = none) :
    doc.Validate = none := by
  have h5 : stepSecurity doc = none := by
    rcases hs with h | h <;>
      simp [stepSecurity, rawSecurity, h, SecurityRequirements.Validate,
        firstErr]
  have h6 : stepServers doc = none := by
    rcases hse with h | h <;>
      simp [stepServers, rawServers, h, Servers.Validate, firstErr]
  have h7 : stepTags doc = none := by
    rcases ht with h | h <;>
      simp [stepTags, rawTags, h, Tags.Validate, firstErr]
  have h8 : stepExternalDocs doc = none := by
    simp [stepExternalDocs, rawExternalDocs, hx]
  rw [validate_eq_validateSpec]
  unfold ValidateSpec
  rw [h1, h2, h3, h4, h5, h6, h7, h8]
  rfl

/-- Witness for C6 at a concrete document with empty optional collections. -/
theorem validate_optional_absent_or_empty_never_fails_witness :
    docEmptyOptionals.Validate = none :=
  validate_optional_absent_or_empty_never_fails docEmptyOptionals
    (by decide) (by decide) (by decide) (by decide)
    (Or.inr rfl) (Or.inr rfl) (Or.inr rfl) rfl

/-- C7: `WithMinorOpenAPIVersion` on a non-nil document stamps the root and
every structurally-present descendant (including operation subtrees attached
by `AddOperation` before the call) with the given minor version, changes
nothing but the stamps (so it returns the same document, mutated, for
chaining), and is idempotent. -/
theorem withMinorVersion_propagates_and_idempotent :
    (∀ (doc : T) (v : Nat), ∃ doc',
        T.WithMinorOpenAPIVersion (some doc) v = some doc' ∧
        doc'.allStampedWith v = true ∧
        doc'.stripStamps = doc.stripStamps) ∧
    (∀ (o : Option T) (v : Nat),
        T.WithMinorOpenAPIVersion (T.WithMinorOpenAPIVersion o v) v =
          T.WithMinorOpenAPIVersion o v) ∧
    (∀ (doc : T) (p m : String) (op : Operation) (v : Nat), ∃ doc',
        T.WithMinorOpenAPIVersion (some (doc.AddOperation p m op)) v
          = some doc' ∧
        doc'.allStampedWith v = true) := by
  refine ⟨fun doc v => ⟨(T.WithMinorOpenAPIVersion (some doc) v).getD doc,
      rfl, withMinor_getD_stamped doc v, withMinor_getD_strip doc v⟩,
    withMinor_idem,
    fun doc p m op v =>
      ⟨(T.WithMinorOpenAPIVersion (some (doc.AddOperation p m op)) v).getD
          (doc.AddOperation p m op),
        rfl, withMinor_getD_stamped (doc.AddOperation p m op) v⟩⟩

/-- C10: calling `WithMinorOpenAPIVersion` on a nil document is a safe no-op
that returns nil (the receiver nil-check), not a fatal precondition
failure. -/
theorem withMinorVersion_nil_receiver_noop (v : Nat) :
    T.WithMinorOpenAPIVersion none v = none := rfl

/-- C9: `AddServer` appends the server at the end of the server list, creating
the list when it was absent; existing servers keep their positions and order,
a second append of the same server is kept as a duplicate, and no other field
of the document changes. -/
theorem addServer_appends_preserving_order (doc : T) (s : Server) :
    (doc.AddServer s).Servers = some (doc.Servers.getD [] ++ [s]) ∧
    ((doc.AddServer s).AddServer s).Servers
      = some (doc.Servers.getD [] ++ [s, s]) ∧
    ((doc.AddServer s).Servers.getD []).length
      = (doc.Servers.getD []).length + 1 ∧
    (doc.AddServer s).OpenAPI = doc.OpenAPI ∧
    (doc.AddServer s).Paths = doc.Paths ∧
    (doc.AddServer s).specMinorVersion = doc.specMinorVersion := by
  refine ⟨rfl, ?_, ?_, rfl, rfl, rfl⟩
  · simp [T.AddServer]
  · simp [T.AddServer]

/-- C8: `AddOperation` never fails: the endpoint collection exists afterwards
and the operation sits under its path and method re-stamped with the
document's current version; the document's stamped version itself is
untouched; a repeated call with the same path and method leaves the graph
shape unchanged (collection and path item are created at most once) and
last-write-wins on the operation value. -/
theorem addOperation_repairs_upserts_and_restamps
    (doc : T) (p m : String) (op op' : Operation) :
    ((doc.AddOperation p m op).Paths).isSome = true ∧
    (doc.AddOperation p m op).specMinorVersion = doc.specMinorVersion ∧
    (∃ item, lookupKey ((doc.AddOperation p m op).Paths.getD []) p
        = some item ∧
      lookupKey item.operations m
        = some (op.WithMinorOpenAPIVersion doc.specMinorVersion)) ∧
    T.pathShape ((doc.AddOperation p m op).AddOperation p m op')
      = T.pathShape (doc.AddOperation p m op) ∧
    (∃ item,
      lookupKey (((doc.AddOperation p m op).AddOperation p m op').Paths.getD [])
          p = some item ∧
      lookupKey item.operations m
        = some (op'.WithMinorOpenAPIVersion doc.specMinorVersion)) := by
  set l := doc.Paths.getD [] with hldef
  set s1 := op.WithMinorOpenAPIVersion doc.specMinorVersion with hs1
  set s2 := op'.WithMinorOpenAPIVersion doc.specMinorVersion with hs2
  set pi0 := (lookupKey l p).getD PathItem.empty with hpi0
  set item1 := pi0.SetOperation m s1 with hitem1
  have hPaths1 : (doc.AddOperation p m op).Paths = some (upsert l p item1) :=
    rfl
  have hPaths2 : ((doc.AddOperation p m op).AddOperation p m op').Paths
      = some (upsert (upsert l p item1) p (item1.SetOperation m s2)) := by
    rw [addOperation_paths]
    rw [hPaths1, addOperation_specMinorVersion]
    rw [Option.getD_some]
    rw [lookupKey_upsert_self]
    rw [Option.getD_some]
  refine ⟨?_, rfl, ?_, ?_, ?_⟩
  · rw [hPaths1]
    rfl
  · refine ⟨item1, ?_, ?_⟩
    · rw [hPaths1, Option.getD_some]
      exact lookupKey_upsert_self l p item1
    · rw [hitem1]
      exact lookupKey_upsert_self pi0.operations m s1
  · unfold T.pathShape
    rw [hPaths2, hPaths1]
    rw [upsert_upsert_self]
    have hg : (fun q => q.operations.map Prod.fst) (item1.SetOperation m s2)
        = (fun q => q.operations.map Prod.fst) item1 := by
      show (upsert item1.operations m s2).map Prod.fst
        = item1.operations.map Prod.fst
      rw [hitem1]
      show (upsert (upsert pi0.operations m s1) m s2).map Prod.fst
        = (upsert pi0.operations m s1).map Prod.fst
      rw [upsert_upsert_self]
      exact keys_upsert_irrel pi0.operations m s2 s1
    exact congrArg some
      (upsert_map_congr (fun q => q.operations.map Prod.fst) l p
        (item1.SetOperation m s2) item1 hg)
  · refine ⟨item1.SetOperation m s2, ?_, ?_⟩
    · rw [hPaths2, Option.getD_some]
      exact lookupKey_upsert_self (upsert l p item1) p (item1.SetOperation m s2)
    · exact lookupKey_upsert_self item1.operations m s2

end openapi3
